import Mathlib

/-!
Verification development for the federated query gateway of the
grafana-app-sdk GraphQL federation subsystem, together with the
issue-tracker example watcher.

The gateway core (schema composer, query router/resolver engine,
relationship resolution with batching/caching, provider auto-discovery)
is described by the design/status documentation; its Go implementation
files (`graphql/subgraph/subgraph.go`, `graphql/codegen/generator.go`,
`graphql/gateway/gateway.go`) are not part of this source snapshot, so
those components are modelled from the specification text.  The
`IssueWatcher` handlers are translated directly from
`pkg/watchers/watcher_issue.go`.
-/

/-! ## Values: opaque structured records addressable by dotted field path -/

/-- Modelled from the spec: the core "treats `Value` as an opaque structured
record addressable by dotted field path".  A value is a scalar, null, an
object of named fields, or a list.  Reference values compared across
subgraphs (e.g. `metadata.uid`) are scalar strings. -/
inductive Value where
  | scalar (s : String)
  | vnull
  | obj (fields : List (String × Value))
  | vlist (elems : List Value)

/-- Look up a named field of an object value's field list. -/
def getField (fs : List (String × Value)) (n : String) : Option Value :=
  (fs.find? (fun p => p.1 == n)).map (fun p => p.2)

/-- Modelled from the spec: follow a dotted field path through nested objects
and return the scalar found at its end (used on candidate target values at
`targetFieldPath`). -/
def extractScalar : List String → Value → Option String
  | [], .scalar s => some s
  | [], _ => none
  | n :: rest, .obj fs =>
      match getField fs n with
      | some v => extractScalar rest v
      | none => none
  | _ :: _, _ => none

/-- Modelled from the spec: extract the reference value(s) at
`sourceFieldPath` from a source value; "if the path traverses a list, the
process repeats per element, producing a set of reference values". -/
def extractRefs : List String → Value → List String
  | [], .scalar s => [s]
  | [], .vlist es => es.attach.flatMap (fun e => extractRefs [] e.1)
  | [], _ => []
  | n :: rest, .obj fs =>
      match getField fs n with
      | some v => extractRefs rest v
      | none => []
  | p, .vlist es => es.attach.flatMap (fun e => extractRefs p e.1)
  | _ :: _, _ => []
termination_by p v => (p.length, sizeOf v)
decreasing_by
  all_goals simp_wf
  · have := List.sizeOf_lt_of_mem e.2
    omega
  · simp [Prod.lex_iff]
  · have := List.sizeOf_lt_of_mem e.2
    simp [Prod.lex_iff]
    omega

/-! ## Subgraph descriptors and the schema composer -/

/-- Modelled from the spec: the capability set of an entity, the subset of
CRUD operations its storage adapter supports. -/
inductive Capability where
  | get
  | list
  | create
  | update
  | delete
  deriving DecidableEq

/-- Modelled from the spec: `FieldType` is a tagged variant
Scalar(name) / Object(entity reference) / List(FieldType) with a
nullability flag. -/
inductive FieldType where
  | scalar (name : String) (nullable : Bool)
  | object (entity : String) (nullable : Bool)
  | listOf (inner : FieldType) (nullable : Bool)
  deriving DecidableEq

/-- Modelled from the spec: an entity of a subgraph, with its name, declared
fields and capability set (the opaque storage adapter handle is not needed
for the composition claims). -/
structure Entity where
  name : String
  fields : List (String × FieldType)
  capabilities : List Capability
  deriving DecidableEq

/-- Modelled from the spec: a subgraph descriptor declares a namespace and a
set of entity types.  The `namespace` attribute is rendered `ns` because
`namespace` is a Lean keyword. -/
structure SubgraphDescriptor where
  ns : String
  entities : List Entity
  deriving DecidableEq

/-- Modelled from the spec: relationship cardinality, `one` or `many`. -/
inductive Cardinality where
  | one
  | many
  deriving DecidableEq

/-- Modelled from the spec and the `codegen.RelationshipConfig` sample in the
status document: field name to inject, namespace-qualified target kind,
source field path holding the reference, target field path to match, and
the optionality/cardinality flags. -/
structure RelationshipConfig where
  fieldName : String
  kind : String
  sourceField : List String
  targetField : List String
  optional : Bool
  cardinality : Cardinality
  deriving DecidableEq

/-- Modelled from the spec: a routing-table entry points a prefixed root
field back at a (namespace, entity, operation) triple. -/
structure RouteTarget where
  ns : String
  entity : String
  op : Capability
  deriving DecidableEq

/-- Modelled from the spec: the composed schema is a type table (prefixed
type/field name to its FieldType and owning entity) plus a routing table
(prefixed root-field name to RouteTarget). -/
structure ComposedSchema where
  typeTable : List (String × FieldType × String)
  routingTable : List (String × RouteTarget)
  deriving DecidableEq

/-- Modelled from the spec: the composition-time error taxonomy. -/
inductive CompositionError where
  | duplicateNamespace (ns : String)
  | unknownTargetEntity (kind : String)
  | fieldCollision (entity fieldName : String)
  deriving DecidableEq

/-- Modelled from the spec: base (un-prefixed) root operation name per
capability: `get<Entity>`, `list<Entity>s`, `create<Entity>`,
`update<Entity>`, `delete<Entity>`. -/
def opBaseName : Capability → String → String
  | .get, e => "get" ++ e
  | .list, e => "list" ++ e ++ "s"
  | .create, e => "create" ++ e
  | .update, e => "update" ++ e
  | .delete, e => "delete" ++ e

/-- Modelled from the spec: every root query field and generated type name is
prefixed with the owning subgraph's namespace followed by a separator
(e.g. `namespace_entity`). -/
def prefixedName (ns s : String) : String := ns ++ "_" ++ s

/-- Modelled from the spec: namespace-qualified entity name, as in the
status document's `dashboard.grafana.app/Dashboard`. -/
def qualifiedName (ns ename : String) : String := ns ++ "/" ++ ename

/-- Modelled from the spec: scan the declared namespaces and report the first
one that occurs twice (composition must "fail fast on duplicate"). -/
def findDuplicateNamespace : List String → Option String
  | [] => none
  | n :: rest => if n ∈ rest then some n else findDuplicateNamespace rest

/-- Modelled from the spec: the routing entries generated for one entity:
one per declared capability, with the prefixed operation name. -/
def entityRoutes (ns : String) (e : Entity) : List (String × RouteTarget) :=
  e.capabilities.map (fun c => (prefixedName ns (opBaseName c e.name), ⟨ns, e.name, c⟩))

/-- Modelled from the spec: the routing table over all descriptors. -/
def buildRoutingTable (ds : List SubgraphDescriptor) : List (String × RouteTarget) :=
  ds.flatMap (fun d => d.entities.flatMap (fun e => entityRoutes d.ns e))

/-- Modelled from the spec: whether a namespace-qualified target kind
resolves against the full set of descriptors. -/
def targetExists (ds : List SubgraphDescriptor) (kind : String) : Bool :=
  ds.any (fun d => d.entities.any (fun e => qualifiedName d.ns e.name == kind))

/-- Modelled from the spec: the type of an injected relationship field,
Object(target) or List(Object(target)) depending on cardinality, nullable
unless the relationship is required and singular. -/
def injectedFieldType (r : RelationshipConfig) : FieldType :=
  match r.cardinality with
  | .one => .object r.kind r.optional
  | .many => .listOf (.object r.kind true) true

/-- Modelled from the spec: relationship registry entries for a given source
entity name (the registry is keyed by source entity, as in
`RegisterRelationship("Playlist", config)`). -/
def relsFor (rels : List (String × RelationshipConfig)) (ename : String) : List RelationshipConfig :=
  (rels.filter (fun p => p.1 == ename)).map (fun p => p.2)

/-- Modelled from the spec: detect a collision between an entity's declared
fields and a relationship field to be injected into it. -/
def findCollision (e : Entity) (rs : List RelationshipConfig) : Option String :=
  (rs.find? (fun r => (e.fields.map (fun p => p.1)).contains r.fieldName)).map
    (fun r => r.fieldName)

/-- Modelled from the spec: relationship validation pass of composition:
unknown target kinds fail with `UnknownTargetEntityError`, field-name
collisions with `FieldCollisionError`. -/
def validateRelationships (ds : List SubgraphDescriptor)
    (rels : List (String × RelationshipConfig)) : Option CompositionError :=
  match rels.find? (fun p => !(targetExists ds p.2.kind)) with
  | some p => some (.unknownTargetEntity p.2.kind)
  | none =>
      match ds.flatMap (fun d => d.entities.filterMap (fun e =>
          (findCollision e (relsFor rels e.name)).map (fun f => (e.name, f)))) with
      | [] => none
      | (en, f) :: _ => some (.fieldCollision en f)

/-- Modelled from the spec: type-table entries for one entity: its declared
fields followed by the injected relationship fields, each keyed by the
prefixed `entity.field` name and carrying the owning entity. -/
def entityTypeEntries (ns : String) (e : Entity) (rs : List RelationshipConfig) :
    List (String × FieldType × String) :=
  (e.fields ++ rs.map (fun r => (r.fieldName, injectedFieldType r))).map
    (fun p => (prefixedName ns (e.name ++ "." ++ p.1), p.2, e.name))

/-- Modelled from the spec: the type table over all descriptors plus the
relationship registry. -/
def buildTypeTable (ds : List SubgraphDescriptor)
    (rels : List (String × RelationshipConfig)) : List (String × FieldType × String) :=
  ds.flatMap (fun d => d.entities.flatMap (fun e => entityTypeEntries d.ns e (relsFor rels e.name)))

/-- Modelled from the spec, section 4.1: `Compose(descriptors, relationships)`
validates namespace uniqueness (fail fast with `DuplicateNamespaceError`),
validates the relationship registry, and otherwise produces the immutable
`ComposedSchema` snapshot. -/
def Compose (ds : List SubgraphDescriptor) (rels : List (String × RelationshipConfig)) :
    Except CompositionError ComposedSchema :=
  match findDuplicateNamespace (ds.map (fun d => d.ns)) with
  | some n => .error (.duplicateNamespace n)
  | none =>
      match validateRelationships ds rels with
      | some e => .error e
      | none => .ok ⟨buildTypeTable ds rels, buildRoutingTable ds⟩

/-! ## Relationship resolution, batching and the per-execution cache -/

/-- Modelled from the spec: the query-scoped resolution error taxonomy. -/
inductive ResolutionError where
  | unknownField (name : String)
  | backendFailure (msg : String)
  | requiredRelationshipMissing
  deriving DecidableEq

/-- Modelled from the spec: a batch/cache key, the (target entity,
target field path, reference value) triple a relationship lookup is
deduplicated by. -/
structure TargetKey where
  entity : String
  fieldPath : List String
  refv : String
  deriving DecidableEq

/-- Modelled from the spec: the `BatchContext` owned by one query execution:
the (entity, key) -> matches cache, plus the log of backend lookup calls
actually issued (one entry per `List` capability call). -/
structure BatchContext where
  cache : List (TargetKey × List Value)
  calls : List TargetKey

/-- Modelled from the spec: a backend is consumed only through its `List`
capability: the target values a given namespace-qualified kind currently
holds, in backend return order. -/
def Backend : Type := String → List Value

/-- Modelled from the spec: match returned target values back to a waiting
reference by comparing the scalar at `targetFieldPath` with the reference
value, preserving backend return order. -/
def matchTargets (targets : List Value) (tpath : List String) (ref : String) : List Value :=
  targets.filter (fun t => extractScalar tpath t == some ref)

/-- Modelled from the spec: resolve one batch key through the per-execution
cache: a cached key is answered without a backend call; otherwise one
backend lookup is issued, logged in `calls`, and its matches cached. -/
def lookupKey (backend : Backend) (ctx : BatchContext) (k : TargetKey) :
    List Value × BatchContext :=
  match ctx.cache.find? (fun p => decide (p.1 = k)) with
  | some p => (p.2, ctx)
  | none =>
      let ms := matchTargets (backend k.entity) k.fieldPath k.refv
      (ms, ⟨(k, ms) :: ctx.cache, ctx.calls ++ [k]⟩)

/-- Modelled from the spec: resolve a wave of batch keys in order, threading
the batch context. -/
def lookupKeys (backend : Backend) (ctx : BatchContext) :
    List TargetKey → List (List Value) × BatchContext
  | [] => ([], ctx)
  | k :: rest =>
      let r1 := lookupKey backend ctx k
      let r2 := lookupKeys backend r1.2 rest
      (r1.1 :: r2.1, r2.2)

/-- Modelled from the spec: the deduplicated batch keys one source value
contributes for a relationship field. -/
def relKeys (r : RelationshipConfig) (src : Value) : List TargetKey :=
  ((extractRefs r.sourceField src).dedup).map (fun v => ⟨r.kind, r.targetField, v⟩)

/-- Modelled from the spec, section 4.3 step 4: bind the collected matches to
a resolved value: zero matches resolve to null when optional and fail with
`RequiredRelationshipMissingError` when required; for cardinality `one` the
first match in backend return order is used (ambiguity is only logged); for
`many` all matches are returned. -/
def bindMatches (r : RelationshipConfig) (ms : List Value) : Except ResolutionError Value :=
  match ms with
  | [] => if r.optional then .ok .vnull else .error .requiredRelationshipMissing
  | m :: rest =>
      match r.cardinality with
      | .one => .ok m
      | .many => .ok (.vlist (m :: rest))

/-- Modelled from the spec: resolve a relationship field of one source value:
extract and deduplicate the references, look each up through the batch
context, and bind the matches. -/
def resolveRelationship (r : RelationshipConfig) (backend : Backend)
    (ctx : BatchContext) (src : Value) : Except ResolutionError Value × BatchContext :=
  let lk := lookupKeys backend ctx (relKeys r src)
  (bindMatches r lk.1.flatten, lk.2)

/-- Modelled from the spec: resolve the same relationship field across the
sibling elements of one resolution wave, threading one per-execution batch
context through all of them. -/
def resolveSiblings (r : RelationshipConfig) (backend : Backend)
    (ctx : BatchContext) : List Value → List (Except ResolutionError Value) × BatchContext
  | [] => ([], ctx)
  | s :: rest =>
      let r1 := resolveRelationship r backend ctx s
      let r2 := resolveSiblings r backend r1.2 rest
      (r1.1 :: r2.1, r2.2)

/-- Modelled from the spec: the batch context a query execution starts with:
empty cache, no backend calls issued yet. -/
def emptyBatchContext : BatchContext := ⟨[], []⟩

/-! ## Per-element resolution of collection results (partial failure) -/

/-- Modelled from the spec: a structured error carried alongside the partial
result, with the path (here: the element index path) at which the failure
occurred. -/
structure FieldError where
  path : List Nat
  err : ResolutionError
  deriving DecidableEq

/-- Modelled from the spec: collect the per-element errors of resolving the
elements of a collection result, addressing each by its index (starting at
`n` for the head). -/
def collectErrors (res : Value → Except ResolutionError Value) :
    List Value → Nat → List FieldError
  | [], _ => []
  | v :: rest, n =>
      (match res v with
       | .ok _ => []
       | .error e => [⟨[n], e⟩]) ++ collectErrors res rest (n + 1)

/-- Modelled from the spec: collection operations resolve each element
independently; a failing element degrades to null in the result tree while
its siblings still resolve, and the per-element errors are collected
alongside the partial result. -/
def resolveElements (res : Value → Except ResolutionError Value) (elems : List Value) :
    List Value × List FieldError :=
  (elems.map (fun v =>
      match res v with
      | .ok rv => rv
      | .error _ => Value.vnull),
   collectErrors res elems 0)

/-! ## Provider auto-discovery -/

/-- Modelled from the status document: a `GraphQLSubgraph` as far as
discovery is concerned: the subgraph descriptor an app contributes. -/
structure GraphQLSubgraph where
  descriptor : SubgraphDescriptor
  deriving DecidableEq

/-- Modelled from the status document: an app provider either does not
implement the optional `GraphQLSubgraphProvider` interface, or implements
it and its `GetGraphQLSubgraph` call returns a subgraph or an error. -/
inductive AppProvider where
  | plain (name : String)
  | withSubgraph (name : String) (result : Except String GraphQLSubgraph)

/-- Modelled from the status document: the optional-capability probe (the
dynamic type assertion to `GraphQLSubgraphProvider`): absent for providers
that do not implement the interface. -/
def getSubgraphCapability : AppProvider → Option (Except String GraphQLSubgraph)
  | .plain _ => none
  | .withSubgraph _ r => some r

/-- Modelled from the status document: the registry of subgraphs
auto-discovery has registered. -/
structure AppProviderRegistry where
  subgraphs : List GraphQLSubgraph
  deriving DecidableEq

/-- Modelled from the status document: `AutoDiscovery` walks the enumerated
providers, skips (without error) every provider that does not expose the
subgraph capability, registers the subgraph of every provider that does,
and fails only when a capable provider's `GetGraphQLSubgraph` fails. -/
def autoDiscovery : List AppProvider → Except String AppProviderRegistry
  | [] => .ok ⟨[]⟩
  | p :: rest =>
      match getSubgraphCapability p with
      | none => autoDiscovery rest
      | some (.error e) => .error e
      | some (.ok s) =>
          match autoDiscovery rest with
          | .error e => .error e
          | .ok reg => .ok ⟨s :: reg.subgraphs⟩

/-- Modelled from the status document: the subgraph a provider contributes
to the registry, when its capability probe succeeds. -/
def capabilityOk (p : AppProvider) : Option GraphQLSubgraph :=
  match getSubgraphCapability p with
  | some (.ok s) => some s
  | _ => none

/-! ## IssueWatcher (translated from pkg/watchers/watcher_issue.go) -/

/-- Static metadata of a resource object; `Namespace` is rendered `ns`
because `namespace` is a Lean keyword. -/
structure StaticMetadata where
  name : String
  ns : String
  kind : String
  deriving DecidableEq

/-- A `resource.Object` as the watcher sees it: its dynamic type either is
`*issuev1.Issue` or some other type, and it carries static metadata. -/
inductive ResourceObject where
  | issue (meta : StaticMetadata)
  | other (typeName : String) (meta : StaticMetadata)
  deriving DecidableEq

/-- The `GetStaticMetadata` accessor of a resource object. -/
def ResourceObject.staticMetadata : ResourceObject → StaticMetadata
  | .issue m => m
  | .other _ m => m

/-- Whether the dynamic type assertion `rObj.(*issuev1.Issue)` succeeds. -/
def ResourceObject.isIssue : ResourceObject → Bool
  | .issue _ => true
  | .other _ _ => false

/-- The error message every handler formats when the type assertion fails,
mirroring `fmt.Errorf("provided object is not of type *issuev1.Issue
(name=%s, namespace=%s, kind=%s)", ...)`. -/
def notIssueErrMsg (m : StaticMetadata) : String :=
  "provided object is not of type *issuev1.Issue (name=" ++ m.name ++
    ", namespace=" ++ m.ns ++ ", kind=" ++ m.kind ++ ")"

/-- `IssueWatcher` carries no fields, exactly as `type IssueWatcher struct{}`. -/
structure IssueWatcher

/-- `NewIssueWatcher` returns an empty watcher and a nil error. -/
def NewIssueWatcher : IssueWatcher × Option String := (⟨⟩, none)

/-- Outcome of a single-object handler call: the object as it stands after
the call (the handlers only read it) and the returned error, `none` for a
nil error. -/
structure HandlerOutcome where
  objAfter : ResourceObject
  err : Option String
  deriving DecidableEq

/-- Outcome of an `Update` call: both objects after the call and the
returned error. -/
structure UpdateOutcome where
  oldAfter : ResourceObject
  newAfter : ResourceObject
  err : Option String
  deriving DecidableEq

/-- `IssueWatcher.Add`: type-check the object, error with its metadata if it
is not an Issue, otherwise log at debug level and return nil. -/
def IssueWatcher.Add (_w : IssueWatcher) (rObj : ResourceObject) : HandlerOutcome :=
  match rObj with
  | .issue _ => ⟨rObj, none⟩
  | .other _ _ => ⟨rObj, some (notIssueErrMsg rObj.staticMetadata)⟩

/-- `IssueWatcher.Update`: type-check the old object first (returning early
with its metadata in the error), then the new object, otherwise log and
return nil. -/
def IssueWatcher.Update (_w : IssueWatcher) (rOld rNew : ResourceObject) : UpdateOutcome :=
  match rOld with
  | .other _ _ => ⟨rOld, rNew, some (notIssueErrMsg rOld.staticMetadata)⟩
  | .issue _ =>
      match rNew with
      | .other _ _ => ⟨rOld, rNew, some (notIssueErrMsg rNew.staticMetadata)⟩
      | .issue _ => ⟨rOld, rNew, none⟩

/-- `IssueWatcher.Delete`: same type-check as `Add`, then logs the deletion. -/
def IssueWatcher.Delete (_w : IssueWatcher) (rObj : ResourceObject) : HandlerOutcome :=
  match rObj with
  | .issue _ => ⟨rObj, none⟩
  | .other _ _ => ⟨rObj, some (notIssueErrMsg rObj.staticMetadata)⟩

/-- `IssueWatcher.Sync`: same type-check as `Add`, then logs the possible
update. -/
def IssueWatcher.Sync (_w : IssueWatcher) (rObj : ResourceObject) : HandlerOutcome :=
  match rObj with
  | .issue _ => ⟨rObj, none⟩
  | .other _ _ => ⟨rObj, some (notIssueErrMsg rObj.staticMetadata)⟩

/-! ## Concrete fixtures (the spec's section-8 scenario) -/

/-- Fixture entity `Widget` of subgraph `a`, capabilities {Get, List}. -/
def widgetEntity : Entity := ⟨"Widget", [], [.get, .list]⟩

/-- Fixture entity `Gadget` of subgraph `b`, capabilities {Get, List}. -/
def gadgetEntity : Entity := ⟨"Gadget", [], [.get, .list]⟩

/-- Fixture descriptor of subgraph `a`. -/
def descA : SubgraphDescriptor := ⟨"a", [widgetEntity]⟩

/-- Fixture descriptor of subgraph `b`. -/
def descB : SubgraphDescriptor := ⟨"b", [gadgetEntity]⟩

/-- Fixture relationship from `Widget.gadgetRef` to `b/Gadget` by
`metadata.uid`, cardinality one, required. -/
def gadgetRel : RelationshipConfig :=
  ⟨"gadget", "b/Gadget", ["gadgetRef"], ["metadata", "uid"], false, .one⟩

/-- Fixture `Gadget` value with the given `metadata.uid`. -/
def gadgetValue (uid : String) : Value :=
  .obj [("metadata", .obj [("uid", .scalar uid)])]

/-- Fixture `Widget` value whose `gadgetRef` holds the given reference. -/
def widgetValue (ref : String) : Value :=
  .obj [("gadgetRef", .scalar ref)]

/-! ## Theorems -/

/-- C10: no `IssueWatcher` handler mutates the resource objects it receives
or any watcher state: `IssueWatcher` carries no fields (any two watcher
values are equal), and every handler returns the objects it was passed
unchanged. -/
theorem issue_watcher_handlers_no_mutation :
    (∀ w1 w2 : IssueWatcher, w1 = w2) ∧
    (∀ (w : IssueWatcher) (rObj : ResourceObject),
      (IssueWatcher.Add w rObj).objAfter = rObj ∧
      (IssueWatcher.Delete w rObj).objAfter = rObj ∧
      (IssueWatcher.Sync w rObj).objAfter = rObj) ∧
    (∀ (w : IssueWatcher) (rOld rNew : ResourceObject),
      (IssueWatcher.Update w rOld rNew).oldAfter = rOld ∧
      (IssueWatcher.Update w rOld rNew).newAfter = rNew) := by
  refine ⟨fun w1 w2 => rfl, fun w rObj => ?_, fun w rOld rNew => ?_⟩
  · cases rObj <;> exact ⟨rfl, rfl, rfl⟩
  · cases rOld <;> cases rNew <;> exact ⟨rfl, rfl⟩

/-- C9: each of `IssueWatcher.Add`, `Update`, `Delete`, `Sync` returns an
error exactly when a supplied object is not of dynamic type
`*issuev1.Issue` (for `Update`: when the old or the new object is not),
and the error message names the offending object's name, namespace and
kind. -/
theorem issue_watcher_type_check (w : IssueWatcher) (rObj rOld rNew : ResourceObject) :
    ((IssueWatcher.Add w rObj).err = none ↔ rObj.isIssue = true) ∧
    ((IssueWatcher.Delete w rObj).err = none ↔ rObj.isIssue = true) ∧
    ((IssueWatcher.Sync w rObj).err = none ↔ rObj.isIssue = true) ∧
    ((IssueWatcher.Update w rOld rNew).err = none ↔
      (rOld.isIssue = true ∧ rNew.isIssue = true)) ∧
    (rObj.isIssue = false →
      (IssueWatcher.Add w rObj).err = some (notIssueErrMsg rObj.staticMetadata) ∧
      (IssueWatcher.Delete w rObj).err = some (notIssueErrMsg rObj.staticMetadata) ∧
      (IssueWatcher.Sync w rObj).err = some (notIssueErrMsg rObj.staticMetadata)) ∧
    (rOld.isIssue = false →
      (IssueWatcher.Update w rOld rNew).err = some (notIssueErrMsg rOld.staticMetadata)) ∧
    (rOld.isIssue = true → rNew.isIssue = false →
      (IssueWatcher.Update w rOld rNew).err = some (notIssueErrMsg rNew.staticMetadata)) ∧
    (∀ m : StaticMetadata, ∃ pre mid1 mid2 post : String,
      notIssueErrMsg m = pre ++ m.name ++ mid1 ++ m.ns ++ mid2 ++ m.kind ++ post) := by
  refine ⟨?_, ?_, ?_, ?_, ?_, ?_, ?_, ?_⟩
  · cases rObj <;> simp [IssueWatcher.Add, ResourceObject.isIssue]
  · cases rObj <;> simp [IssueWatcher.Delete, ResourceObject.isIssue]
  · cases rObj <;> simp [IssueWatcher.Sync, ResourceObject.isIssue]
  · cases rOld <;> cases rNew <;> simp [IssueWatcher.Update, ResourceObject.isIssue]
  · cases rObj <;> simp [IssueWatcher.Add, IssueWatcher.Delete, IssueWatcher.Sync,
      ResourceObject.isIssue]
  · cases rOld <;> simp [IssueWatcher.Update, ResourceObject.isIssue]
  · cases rOld <;> cases rNew <;> simp [IssueWatcher.Update, ResourceObject.isIssue]
  · intro m
    exact ⟨"provided object is not of type *issuev1.Issue (name=", ", namespace=",
      ", kind=", ")", rfl⟩

/-- Witness for C9: on a non-Issue object the `Add` handler returns exactly
the formatted error, and on an Issue it returns a nil error. -/
theorem issue_watcher_type_check_witness :
    (IssueWatcher.Add ⟨⟩ (ResourceObject.other "Pod" ⟨"p1", "default", "Pod"⟩)).err =
      some (notIssueErrMsg ⟨"p1", "default", "Pod"⟩) ∧
    (IssueWatcher.Add ⟨⟩ (ResourceObject.issue ⟨"i1", "default", "Issue"⟩)).err = none := by
  have h := issue_watcher_type_check ⟨⟩ (ResourceObject.other "Pod" ⟨"p1", "default", "Pod"⟩)
    (ResourceObject.issue ⟨"i1", "default", "Issue"⟩)
    (ResourceObject.issue ⟨"i1", "default", "Issue"⟩)
  have h2 := issue_watcher_type_check ⟨⟩ (ResourceObject.issue ⟨"i1", "default", "Issue"⟩)
    (ResourceObject.issue ⟨"i1", "default", "Issue"⟩)
    (ResourceObject.issue ⟨"i1", "default", "Issue"⟩)
  exact ⟨(h.2.2.2.2.1 rfl).1, (h2.1).mpr rfl⟩

/-- Auxiliary: on success, auto-discovery registers exactly the subgraphs of
the providers whose capability probe succeeded. -/
theorem autoDiscovery_subgraphs (ps : List AppProvider) (reg : AppProviderRegistry)
    (h : autoDiscovery ps = .ok reg) : reg.subgraphs = ps.filterMap capabilityOk := by
  induction ps generalizing reg with
  | nil =>
      simp [autoDiscovery] at h
      simp [← h]
  | cons p rest ih =>
      cases hc : getSubgraphCapability p with
      | none =>
          rw [autoDiscovery, hc] at h
          simp [List.filterMap_cons, capabilityOk, hc, ih reg h]
      | some r =>
          cases r with
          | error e =>
              rw [autoDiscovery, hc] at h
              exact absurd h (by simp)
          | ok s =>
              rw [autoDiscovery, hc] at h
              cases hrest : autoDiscovery rest with
              | error e => rw [hrest] at h; exact absurd h (by simp)
              | ok reg' =>
                  rw [hrest] at h
                  cases h
                  simp [List.filterMap_cons, capabilityOk, hc, ih reg' hrest]

/-- C7: a provider that does not expose the subgraph capability is skipped
without producing an error (discovery of the provider list with and
without it coincide), and on success only the subgraphs of
capability-exposing providers are registered. -/
theorem discovery_skips_incapable_providers
    (pre post : List AppProvider) (p : AppProvider)
    (hp : getSubgraphCapability p = none) :
    autoDiscovery (pre ++ p :: post) = autoDiscovery (pre ++ post) ∧
    ∀ reg, autoDiscovery (pre ++ p :: post) = .ok reg →
      reg.subgraphs = (pre ++ p :: post).filterMap capabilityOk := by
  constructor
  · induction pre with
    | nil => simp [autoDiscovery, hp]
    | cons q pre' ih =>
        simp only [List.cons_append]
        rw [autoDiscovery, autoDiscovery, ih]
  · intro reg hreg
    exact autoDiscovery_subgraphs (pre ++ p :: post) reg hreg

/-- Witness for C7: a concrete run where a capability-less provider sits
between two capable ones: discovery skips it, errors nowhere, and
registers exactly the two subgraphs. -/
theorem discovery_skips_incapable_providers_witness :
    autoDiscovery [AppProvider.withSubgraph "playlist" (.ok ⟨descA⟩),
        AppProvider.plain "legacy",
        AppProvider.withSubgraph "dashboard" (.ok ⟨descB⟩)] =
      autoDiscovery [AppProvider.withSubgraph "playlist" (.ok ⟨descA⟩),
        AppProvider.withSubgraph "dashboard" (.ok ⟨descB⟩)] ∧
    ∀ reg, autoDiscovery [AppProvider.withSubgraph "playlist" (.ok ⟨descA⟩),
        AppProvider.plain "legacy",
        AppProvider.withSubgraph "dashboard" (.ok ⟨descB⟩)] = .ok reg →
      reg.subgraphs = [⟨descA⟩, ⟨descB⟩] := by
  have h := discovery_skips_incapable_providers
    [AppProvider.withSubgraph "playlist" (.ok ⟨descA⟩)]
    [AppProvider.withSubgraph "dashboard" (.ok ⟨descB⟩)]
    (AppProvider.plain "legacy") rfl
  refine ⟨h.1, fun reg hreg => ?_⟩
  rw [h.2 reg hreg]
  rfl

/-- C6: composition is deterministic and idempotent: two runs of `Compose`
on the same descriptors and the same relationship registry yield composed
schemas with identical routing tables and identical type tables. -/
theorem compose_deterministic
    (ds : List SubgraphDescriptor) (rels : List (String × RelationshipConfig))
    (s1 s2 : ComposedSchema)
    (h1 : Compose ds rels = .ok s1) (h2 : Compose ds rels = .ok s2) :
    s1.routingTable = s2.routingTable ∧ s1.typeTable = s2.typeTable := by
  rw [h1] at h2
  injection h2 with h
  rw [h]
  exact ⟨rfl, rfl⟩

/-- Witness for C6: composing the section-8 fixture descriptors twice yields
identical tables. -/
theorem compose_deterministic_witness :
    Compose [descA, descB] [] = .ok ⟨buildTypeTable [descA, descB] [], buildRoutingTable [descA, descB]⟩ ∧
    (buildTypeTable [descA, descB] [] = buildTypeTable [descA, descB] [] ∧
      buildRoutingTable [descA, descB] = buildRoutingTable [descA, descB]) := by
  refine ⟨rfl, ?_⟩
  have h := compose_deterministic [descA, descB] []
    ⟨buildTypeTable [descA, descB] [], buildRoutingTable [descA, descB]⟩
    ⟨buildTypeTable [descA, descB] [], buildRoutingTable [descA, descB]⟩
    rfl rfl
  exact ⟨h.2, h.1⟩

/-- Auxiliary: the duplicate scan reports nothing exactly when the namespace
list has no duplicates. -/
theorem findDuplicateNamespace_eq_none (l : List String) :
    findDuplicateNamespace l = none ↔ l.Nodup := by
  induction l with
  | nil => simp [findDuplicateNamespace]
  | cons n rest ih => by_cases h : n ∈ rest <;> simp [findDuplicateNamespace, h, ih]

/-- Counterexample for C2 as frozen: with two descriptors of distinct
namespaces but a relationship whose target kind resolves against no
descriptor, composition does not succeed (it fails with
`UnknownTargetEntityError`), so distinct namespaces alone do not guarantee
success. -/
theorem compose_distinct_namespaces_can_still_fail :
    (([descA, descB].map (fun d => d.ns)).Nodup) ∧
    Compose [descA, descB]
        [("Widget", ⟨"gadget", "missing/X", ["gadgetRef"], ["metadata", "uid"], true, .one⟩)] =
      .error (.unknownTargetEntity "missing/X") := by
  constructor
  · decide
  · rfl

/-- C2 (amended): composition fails with a duplicate-namespace error
whenever two input descriptors declare the same namespace; when all
namespaces are distinct and the relationship registry validates (every
target kind resolves, no injected field collides with a declared field),
composition succeeds; and on success every root field name in the routing
table is the owning subgraph's namespace-prefixed operation name. -/
theorem compose_namespace_validation
    (ds : List SubgraphDescriptor) (rels : List (String × RelationshipConfig)) :
    (¬ (ds.map (fun d => d.ns)).Nodup →
      ∃ n, Compose ds rels = .error (.duplicateNamespace n)) ∧
    ((ds.map (fun d => d.ns)).Nodup → validateRelationships ds rels = none →
      ∃ s, Compose ds rels = .ok s) ∧
    (∀ s, Compose ds rels = .ok s →
      ∀ k t, (k, t) ∈ s.routingTable → ∃ base, k = prefixedName t.ns base) := by
  refine ⟨?_, ?_, ?_⟩
  · intro hdup
    cases hfind : findDuplicateNamespace (ds.map (fun d => d.ns)) with
    | none => exact absurd ((findDuplicateNamespace_eq_none _).mp hfind) hdup
    | some n => exact ⟨n, by rw [Compose, hfind]⟩
  · intro hnd hval
    rw [Compose, (findDuplicateNamespace_eq_none _).mpr hnd, hval]
    exact ⟨_, rfl⟩
  · intro s hs k t hmem
    have hroute : s.routingTable = buildRoutingTable ds := by
      rw [Compose] at hs
      cases hfind : findDuplicateNamespace (ds.map (fun d => d.ns)) with
      | some n => rw [hfind] at hs; exact absurd hs (by simp)
      | none =>
          rw [hfind] at hs
          cases hval : validateRelationships ds rels with
          | some e => rw [hval] at hs; exact absurd hs (by simp)
          | none =>
              rw [hval] at hs
              injection hs with h
              rw [← h]
    rw [hroute] at hmem
    simp only [buildRoutingTable, entityRoutes, List.mem_flatMap, List.mem_map] at hmem
    obtain ⟨d, _, e, _, c, _, hpair⟩ := hmem
    have hk : k = prefixedName d.ns (opBaseName c e.name) := by
      have := congrArg Prod.fst hpair
      simpa using this.symm
    have ht : t = ⟨d.ns, e.name, c⟩ := by
      have := congrArg Prod.snd hpair
      simpa using this.symm
    exact ⟨opBaseName c e.name, by rw [hk, ht]⟩

/-- Witness for C2 (amended): a duplicate namespace makes the fixture
composition fail with the duplicate-namespace error, and with distinct
namespaces and the valid fixture relationship it succeeds with every
routing key namespace-prefixed. -/
theorem compose_namespace_validation_witness :
    (∃ n, Compose [descA, ⟨"a", [gadgetEntity]⟩] [("Widget", gadgetRel)] =
      .error (.duplicateNamespace n)) ∧
    (∃ s, Compose [descA, descB] [("Widget", gadgetRel)] = .ok s) ∧
    (∀ s, Compose [descA, descB] [("Widget", gadgetRel)] = .ok s →
      ∀ k t, (k, t) ∈ s.routingTable → ∃ base, k = prefixedName t.ns base) := by
  have h1 := (compose_namespace_validation [descA, ⟨"a", [gadgetEntity]⟩]
    [("Widget", gadgetRel)]).1 (by decide)
  have h2 := (compose_namespace_validation [descA, descB] [("Widget", gadgetRel)]).2.1
    (by decide) (by rfl)
  have h3 := (compose_namespace_validation [descA, descB] [("Widget", gadgetRel)]).2.2
  exact ⟨h1, h2, h3⟩

/-- Auxiliary predicate: every cache entry of a batch context holds exactly
the matches the backend would return for its key. -/
def cacheConsistent (backend : Backend) (ctx : BatchContext) : Prop :=
  ∀ k ms, (k, ms) ∈ ctx.cache → ms = matchTargets (backend k.entity) k.fieldPath k.refv

/-- Auxiliary: the initial batch context is trivially cache-consistent. -/
theorem emptyBatchContext_consistent (backend : Backend) :
    cacheConsistent backend emptyBatchContext := by
  intro k ms hmem
  simp [emptyBatchContext] at hmem

/-- Auxiliary: on a consistent context, one batch lookup returns exactly the
backend's matches for its key and preserves consistency. -/
theorem lookupKey_consistent (backend : Backend) (ctx : BatchContext) (k : TargetKey)
    (h : cacheConsistent backend ctx) :
    (lookupKey backend ctx k).1 = matchTargets (backend k.entity) k.fieldPath k.refv ∧
    cacheConsistent backend (lookupKey backend ctx k).2 := by
  rw [lookupKey]
  cases hfind : ctx.cache.find? (fun p => decide (p.1 = k)) with
  | none =>
      refine ⟨rfl, ?_⟩
      intro k' ms' hmem
      simp only at hmem
      rcases List.mem_cons.mp hmem with heq | htail
      · cases heq
        rfl
      · exact h k' ms' htail
  | some q =>
      have hq : q.1 = k := by
        have := List.find?_some hfind
        exact of_decide_eq_true this
      have hmem : q ∈ ctx.cache := List.mem_of_find?_eq_some hfind
      refine ⟨?_, h⟩
      have := h q.1 q.2 (by simpa using hmem)
      rw [hq] at this
      simpa using this

/-- Auxiliary: on a consistent context, a wave of batch lookups returns the
backend's matches for each key in order and preserves consistency. -/
theorem lookupKeys_consistent (backend : Backend) (ks : List TargetKey)
    (ctx : BatchContext) (h : cacheConsistent backend ctx) :
    (lookupKeys backend ctx ks).1 =
      ks.map (fun k => matchTargets (backend k.entity) k.fieldPath k.refv) ∧
    cacheConsistent backend (lookupKeys backend ctx ks).2 := by
  induction ks generalizing ctx with
  | nil => exact ⟨rfl, h⟩
  | cons k rest ih =>
      have h1 := lookupKey_consistent backend ctx k h
      have h2 := ih (lookupKey backend ctx k).2 h1.2
      rw [lookupKeys]
      exact ⟨by rw [List.map_cons, ← h1.1, ← h2.1], h2.2⟩

/-- Auxiliary: a flattened list of empty lists is empty. -/
theorem flatten_of_all_nil {α : Type} (ls : List (List α)) (h : ∀ l ∈ ls, l = []) :
    ls.flatten = [] := by
  induction ls with
  | nil => rfl
  | cons l rest ih =>
      rw [List.flatten_cons, h l (List.mem_cons_self l rest), List.nil_append]
      exact ih (fun l' hl' => h l' (List.mem_cons_of_mem l hl'))

/-- C3: for a required (`optional=false`) relationship of cardinality `one`,
resolving a source value none of whose extracted references matches any
target value yields the required-relationship-missing error, never a null
result. -/
theorem required_relationship_missing_error
    (r : RelationshipConfig) (backend : Backend) (src : Value)
    (hopt : r.optional = false) (hcard : r.cardinality = .one)
    (hzero : ∀ ref ∈ (extractRefs r.sourceField src).dedup,
        matchTargets (backend r.kind) r.targetField ref = []) :
    (resolveRelationship r backend emptyBatchContext src).1 =
      .error .requiredRelationshipMissing := by
  rw [resolveRelationship]
  have hk := lookupKeys_consistent backend (relKeys r src) emptyBatchContext
    (emptyBatchContext_consistent backend)
  simp only
  rw [hk.1]
  have hflat : ((relKeys r src).map
      (fun k => matchTargets (backend k.entity) k.fieldPath k.refv)).flatten = [] := by
    apply flatten_of_all_nil
    intro l hl
    simp only [relKeys, List.map_map, List.mem_map] at hl
    obtain ⟨ref, href, hrefl⟩ := hl
    rw [← hrefl]
    exact hzero ref href
  rw [hflat]
  simp [bindMatches, hopt]

/-- Witness for C3: the fixture widget references `g1`, the backend holds no
matching gadget, and the required `one` relationship resolves to the
required-relationship-missing error. -/
theorem required_relationship_missing_error_witness :
    gadgetRel.optional = false ∧
    (resolveRelationship gadgetRel (fun _ => []) emptyBatchContext (widgetValue "g1")).1 =
      .error .requiredRelationshipMissing := by
  refine ⟨rfl, ?_⟩
  exact required_relationship_missing_error gadgetRel (fun _ => []) (widgetValue "g1")
    rfl rfl (fun ref _ => rfl)

/-- C4: for an `optional=true` relationship, resolution finding zero
matching target values resolves the field to null and produces no error. -/
theorem optional_relationship_null
    (r : RelationshipConfig) (backend : Backend) (src : Value)
    (hopt : r.optional = true)
    (hzero : ∀ ref ∈ (extractRefs r.sourceField src).dedup,
        matchTargets (backend r.kind) r.targetField ref = []) :
    (resolveRelationship r backend emptyBatchContext src).1 = .ok .vnull := by
  rw [resolveRelationship]
  have hk := lookupKeys_consistent backend (relKeys r src) emptyBatchContext
    (emptyBatchContext_consistent backend)
  simp only
  rw [hk.1]
  have hflat : ((relKeys r src).map
      (fun k => matchTargets (backend k.entity) k.fieldPath k.refv)).flatten = [] := by
    apply flatten_of_all_nil
    intro l hl
    simp only [relKeys, List.map_map, List.mem_map] at hl
    obtain ⟨ref, href, hrefl⟩ := hl
    rw [← hrefl]
    exact hzero ref href
  rw [hflat]
  simp [bindMatches, hopt]

/-- Witness for C4: an optional variant of the fixture relationship against
an empty backend resolves to null with no error. -/
theorem optional_relationship_null_witness :
    (resolveRelationship ⟨"gadget", "b/Gadget", ["gadgetRef"], ["metadata", "uid"], true, .one⟩
        (fun _ => []) emptyBatchContext (widgetValue "g1")).1 = .ok .vnull := by
  exact optional_relationship_null
    ⟨"gadget", "b/Gadget", ["gadgetRef"], ["metadata", "uid"], true, .one⟩
    (fun _ => []) (widgetValue "g1") rfl (fun ref _ => rfl)

/-- C8: for a `cardinality=one` relationship whose single reference matches
more than one target value, resolution succeeds with the first match in
backend return order and returns no error; the match list is an
order-preserving sublist of the backend's return order. -/
theorem cardinality_one_first_match
    (r : RelationshipConfig) (backend : Backend) (src : Value)
    (ref : String) (m m2 : Value) (rest : List Value)
    (hcard : r.cardinality = .one)
    (hrefs : (extractRefs r.sourceField src).dedup = [ref])
    (hmatch : matchTargets (backend r.kind) r.targetField ref = m :: m2 :: rest) :
    (resolveRelationship r backend emptyBatchContext src).1 = .ok m ∧
    (m :: m2 :: rest).Sublist (backend r.kind) := by
  constructor
  · rw [resolveRelationship]
    have hk := lookupKeys_consistent backend (relKeys r src) emptyBatchContext
      (emptyBatchContext_consistent backend)
    simp only
    rw [hk.1]
    have hkeys : relKeys r src = [⟨r.kind, r.targetField, ref⟩] := by
      rw [relKeys, hrefs]
      rfl
    rw [hkeys]
    simp only [List.map_cons, List.map_nil, List.flatten_cons, List.flatten_nil,
      List.append_nil]
    rw [hmatch]
    simp [bindMatches, hcard]
  · rw [← hmatch]
    exact List.filter_sublist (backend r.kind)

/-- Witness for C8: two gadgets share `metadata.uid = "u1"`; the `one`
relationship resolves to the first of them, without error. -/
theorem cardinality_one_first_match_witness :
    (resolveRelationship
        ⟨"gadget", "b/Gadget", ["gadgetRef"], ["metadata", "uid"], true, .one⟩
        (fun _ => [gadgetValue "u1", gadgetValue "u1"]) emptyBatchContext
        (widgetValue "u1")).1 = .ok (gadgetValue "u1") ∧
    ([gadgetValue "u1", gadgetValue "u1"] : List Value).Sublist
      [gadgetValue "u1", gadgetValue "u1"] := by
  have h := cardinality_one_first_match
    ⟨"gadget", "b/Gadget", ["gadgetRef"], ["metadata", "uid"], true, .one⟩
    (fun _ => [gadgetValue "u1", gadgetValue "u1"]) (widgetValue "u1")
    "u1" (gadgetValue "u1") (gadgetValue "u1") []
    rfl (by simp [extractRefs, widgetValue, getField]) rfl
  exact h

/-- Auxiliary: a run of per-element resolutions that all succeed collects no
errors. -/
theorem collectErrors_of_all_ok (res : Value → Except ResolutionError Value)
    (elems : List Value) (n : Nat)
    (h : ∀ v ∈ elems, ∃ rv, res v = .ok rv) : collectErrors res elems n = [] := by
  induction elems generalizing n with
  | nil => rfl
  | cons v rest ih =>
      obtain ⟨rv, hrv⟩ := h v (List.mem_cons_self v rest)
      rw [collectErrors, hrv]
      exact ih (n + 1) (fun v' hv' => h v' (List.mem_cons_of_mem v hv'))

/-- Auxiliary: when exactly the element at index `i` fails, the collected
error list is the single entry at index path `n + i`. -/
theorem collectErrors_single_failure (res : Value → Except ResolutionError Value)
    (elems : List Value) (i : Nat) (vi : Value) (e : ResolutionError) (n : Nat)
    (hvi : elems[i]? = some vi) (hfail : res vi = .error e)
    (hok : ∀ j vj, j ≠ i → elems[j]? = some vj → ∃ rv, res vj = .ok rv) :
    collectErrors res elems n = [⟨[n + i], e⟩] := by
  induction elems generalizing i n with
  | nil => simp at hvi
  | cons v rest ih =>
      cases i with
      | zero =>
          rw [List.getElem?_cons_zero] at hvi
          injection hvi with hv
          subst hv
          rw [collectErrors, hfail]
          have hrest : collectErrors res rest (n + 1) = [] := by
            apply collectErrors_of_all_ok
            intro v' hv'
            obtain ⟨j, hj⟩ := List.mem_iff_getElem?.mp hv'
            exact hok (j + 1) v' (Nat.succ_ne_zero j) (by simpa using hj)
          rw [hrest]
          simp
      | succ i' =>
          rw [List.getElem?_cons_succ] at hvi
          obtain ⟨rv, hrv⟩ := hok 0 v (by simp) (by simp)
          rw [collectErrors, hrv]
          have htail := ih i' (n + 1) hvi
            (fun j vj hj hget => hok (j + 1) vj (by omega) (by simpa using hget))
          rw [htail]
          have harith : n + 1 + i' = n + (i' + 1) := by omega
          rw [List.nil_append, harith]

/-- C5: if resolving element `i` of an `N`-element list result fails while
every other element resolves, each other element still resolves and
appears at its index in the result tree, and the error list contains
exactly one entry, whose path addresses element `i`. -/
theorem list_partial_failure
    (res : Value → Except ResolutionError Value) (elems : List Value)
    (i : Nat) (vi : Value) (e : ResolutionError)
    (hvi : elems[i]? = some vi) (hfail : res vi = .error e)
    (hok : ∀ j vj, j ≠ i → elems[j]? = some vj → ∃ rv, res vj = .ok rv) :
    (resolveElements res elems).1.length = elems.length ∧
    (∀ j vj, j ≠ i → elems[j]? = some vj →
      ∃ rv, res vj = .ok rv ∧ (resolveElements res elems).1[j]? = some rv) ∧
    (resolveElements res elems).2 = [⟨[i], e⟩] := by
  refine ⟨by simp [resolveElements], ?_, ?_⟩
  · intro j vj hj hget
    obtain ⟨rv, hrv⟩ := hok j vj hj hget
    refine ⟨rv, hrv, ?_⟩
    rw [resolveElements]
    simp [List.getElem?_map, hget, hrv]
  · rw [resolveElements]
    simp only
    have := collectErrors_single_failure res elems i vi e 0 hvi hfail hok
    simpa using this

/-- Witness for C5: of three scalar elements the middle one fails to
resolve; the other two appear at their indices and the error list is the
single entry at path `[1]`. -/
theorem list_partial_failure_witness :
    (resolveElements
        (fun v => match v with
          | .scalar "bad" => .error (.backendFailure "boom")
          | v' => .ok v')
        [.scalar "a", .scalar "bad", .scalar "c"]).1.length = 3 ∧
    (resolveElements
        (fun v => match v with
          | .scalar "bad" => .error (.backendFailure "boom")
          | v' => .ok v')
        [.scalar "a", .scalar "bad", .scalar "c"]).2 =
      [⟨[1], .backendFailure "boom"⟩] := by
  have h := list_partial_failure
    (fun v => match v with
      | .scalar "bad" => .error (.backendFailure "boom")
      | v' => .ok v')
    [.scalar "a", .scalar "bad", .scalar "c"] 1 (.scalar "bad") (.backendFailure "boom")
    rfl rfl ?_
  · exact ⟨h.1, h.2.2⟩
  · intro j vj hj hget
    match j, hget with
    | 0, hget =>
        refine ⟨.scalar "a", ?_⟩
        rw [List.getElem?_cons_zero] at hget
        injection hget with hv
        rw [← hv]
        rfl
    | 1, hget => exact absurd rfl hj
    | j' + 2, hget =>
        match j', hget with
        | 0, hget =>
            refine ⟨.scalar "c", ?_⟩
            simp at hget
            rw [← hget]
            rfl
        | j'' + 1, hget => simp at hget

/-- Auxiliary predicate: the backend-call log of a batch context has no
duplicates and every key already called is present in the cache. -/
def callsInvariant (ctx : BatchContext) : Prop :=
  ctx.calls.Nodup ∧
  ∀ k ∈ ctx.calls, (ctx.cache.find? (fun p => decide (p.1 = k))).isSome = true

/-- Auxiliary: the initial batch context satisfies the call-log invariant. -/
theorem emptyBatchContext_callsInvariant : callsInvariant emptyBatchContext := by
  constructor
  · exact List.nodup_nil
  · intro k hk
    simp [emptyBatchContext] at hk

/-- Auxiliary: one batch lookup preserves the call-log invariant: a cached
key issues no call, and an uncached key is called once and cached. -/
theorem lookupKey_callsInvariant (backend : Backend) (ctx : BatchContext) (k : TargetKey)
    (h : callsInvariant ctx) : callsInvariant (lookupKey backend ctx k).2 := by
  rw [lookupKey]
  cases hfind : ctx.cache.find? (fun p => decide (p.1 = k)) with
  | some q => exact h
  | none =>
      have hknot : k ∉ ctx.calls := by
        intro hk
        have := h.2 k hk
        rw [hfind] at this
        simp at this
      constructor
      · rw [List.nodup_append]
        refine ⟨h.1, List.nodup_singleton k, ?_⟩
        intro a ha hak
        rw [List.mem_singleton] at hak
        subst hak
        exact hknot ha
      · intro k' hk'
        rcases List.mem_append.mp hk' with hin | heq
        · by_cases hkk : k = k'
          · subst hkk
            rw [List.find?_cons_of_pos]
            · rfl
            · simp
          · rw [List.find?_cons_of_neg]
            · exact h.2 k' hin
            · simp [hkk]
        · rw [List.mem_singleton] at heq
          subst heq
          rw [List.find?_cons_of_pos]
          · rfl
          · simp

/-- Auxiliary: a wave of batch lookups preserves the call-log invariant. -/
theorem lookupKeys_callsInvariant (backend : Backend) (ks : List TargetKey)
    (ctx : BatchContext) (h : callsInvariant ctx) :
    callsInvariant (lookupKeys backend ctx ks).2 := by
  induction ks generalizing ctx with
  | nil => exact h
  | cons k rest ih =>
      rw [lookupKeys]
      exact ih (lookupKey backend ctx k).2 (lookupKey_callsInvariant backend ctx k h)

/-- Auxiliary: resolving one relationship field preserves the call-log
invariant. -/
theorem resolveRelationship_callsInvariant (r : RelationshipConfig) (backend : Backend)
    (ctx : BatchContext) (src : Value) (h : callsInvariant ctx) :
    callsInvariant (resolveRelationship r backend ctx src).2 := by
  rw [resolveRelationship]
  exact lookupKeys_callsInvariant backend (relKeys r src) ctx h

/-- Auxiliary: resolving a relationship field across sibling elements
preserves the call-log invariant. -/
theorem resolveSiblings_callsInvariant (r : RelationshipConfig) (backend : Backend)
    (siblings : List Value) (ctx : BatchContext) (h : callsInvariant ctx) :
    callsInvariant (resolveSiblings r backend ctx siblings).2 := by
  induction siblings generalizing ctx with
  | nil => exact h
  | cons s rest ih =>
      rw [resolveSiblings]
      exact ih (resolveRelationship r backend ctx s).2
        (resolveRelationship_callsInvariant r backend ctx s h)

/-- C1: resolving one relationship field across any number of sibling
elements within one query execution issues at most one backend lookup per
target key: the call log is duplicate-free, so every (entity, field-path,
reference) key is looked up at most once, however many siblings reference
it. -/
theorem batching_no_duplicate_backend_calls
    (r : RelationshipConfig) (backend : Backend) (siblings : List Value) :
    ((resolveSiblings r backend emptyBatchContext siblings).2.calls).Nodup ∧
    ∀ k : TargetKey,
      ((resolveSiblings r backend emptyBatchContext siblings).2.calls).count k ≤ 1 := by
  have h := resolveSiblings_callsInvariant r backend siblings emptyBatchContext
    emptyBatchContext_callsInvariant
  exact ⟨h.1, fun k => List.nodup_iff_count_le_one.mp h.1 k⟩
